import Mathlib

/-!
# Verification of the product-search module (`search.py`)

A shallow embedding of the retrieval core of the repository: the indexing
step, `search_products` (vector search with optional brand filter),
`semantic_search` (LLM re-ranking of a supplied product list), and
`hybrid_search` (deduplicating merge of the two).

External collaborators (the sentence-transformer encoder, the qdrant
vector index, the LLM HTTP endpoint) are parameters or small models of
their documented contracts: the encoder is an arbitrary function
`String → List ℚ`, the index query filters by attribute equality, ranks
by a caller-supplied score function in descending order and truncates to
the requested limit, and the LLM interaction is summarised by the parse
outcome of its response (`ParsedResponse`).

Python-specific semantics that the source relies on are modelled
explicitly: `enumerate` (`pyEnumerate`), truthiness of an optional
string (`brand_filter` may be `None` or empty), negative list indexing
(`pyIndex`), and list slicing `[:k]` (`pyTake`).
-/

/-- A catalog entry as loaded from `products.json`: the fields the module
reads are `name`, `description`, `price`, `brand` and `category`. -/
structure Product where
  name : String
  description : String
  price : Nat
  brand : String
  category : String
  deriving DecidableEq, Repr

/-- Default product used only as the junk value of `List.getD`. -/
def dummyProduct : Product :=
  { name := "", description := "", price := 0, brand := "", category := "" }

/-- The payload stored with each vector-index record (lines 51-56 of
`search.py`): the product fields minus the description. -/
structure Payload where
  name : String
  price : Nat
  brand : String
  category : String
  deriving DecidableEq, Repr

/-- A record of the vector index: id, embedding vector, payload
(`PointStruct` of lines 47-58). -/
structure QPoint where
  id : Nat
  vector : List ℚ
  payload : Payload
  deriving DecidableEq, Repr

/-- A hit returned by the vector-index query: id, payload and similarity
score. -/
structure QHit where
  id : Nat
  payload : Payload
  score : ℚ
  deriving DecidableEq, Repr

/-- An attribute-equality condition of a qdrant filter
(`FieldCondition(key=..., match=MatchValue(value=...))`, line 69). -/
structure QFieldCondition where
  key : String
  value : String
  deriving DecidableEq, Repr

/-- A qdrant filter: the conjunction of its `must` conditions
(line 68). -/
structure QFilter where
  must : List QFieldCondition
  deriving DecidableEq, Repr

/-- Look up a payload attribute by its qdrant key; `price` is numeric and
never compared against a string condition. -/
def payloadGet (pl : Payload) : String → Option String
  | "name" => some pl.name
  | "brand" => some pl.brand
  | "category" => some pl.category
  | _ => none

/-- A payload satisfies an equality condition when the keyed attribute
equals the condition's value. -/
def condHolds (pl : Payload) (c : QFieldCondition) : Bool :=
  payloadGet pl c.key == some c.value

/-- A payload passes an optional filter when it satisfies every `must`
condition; no filter passes everything. -/
def filterHolds (pl : Payload) : Option QFilter → Bool
  | none => true
  | some f => f.must.all (condHolds pl)

/-- Stable descending insertion by score (model of the index's ranking of
hits by decreasing similarity). -/
def insertHit (h : QHit) : List QHit → List QHit
  | [] => [h]
  | x :: xs => if x.score ≤ h.score then h :: x :: xs else x :: insertHit h xs

/-- Sort hits by descending score (stable). -/
def sortHits : List QHit → List QHit
  | [] => []
  | x :: xs => insertHit x (sortHits xs)

/-- Model of `client.search` (lines 72-77): keep the records passing the
filter, score each against the query vector, rank by descending score and
return at most `limit` hits.  The score function (cosine similarity in
the source's configuration) is a parameter, as it belongs to the external
index. -/
def qdrantSearch (points : List QPoint) (score : List ℚ → List ℚ → ℚ)
    (qv : List ℚ) (qf : Option QFilter) (limit : Int) : List QHit :=
  let passing := points.filter (fun p => filterHolds p.payload qf)
  let hits := passing.map (fun p => QHit.mk p.id p.payload (score qv p.vector))
  (sortHits hits).take limit.toNat

/-- Python `enumerate(xs, start)`. -/
def pyEnumerate (start : Nat) : List α → List (Nat × α)
  | [] => []
  | x :: xs => (start, x) :: pyEnumerate (start + 1) xs

/-- Python `xs[i]`: negative indices count from the end; `none` is an
`IndexError`. -/
def pyIndex (xs : List α) (i : Int) : Option α :=
  let j := if i < 0 then i + xs.length else i
  if 0 ≤ j ∧ j < xs.length then xs.get? j.toNat else none

/-- Python `xs[:k]`: a non-negative bound takes a prefix, a negative
bound drops `|k|` elements from the end. -/
def pyTake (xs : List α) (k : Int) : List α :=
  if 0 ≤ k then xs.take k.toNat else xs.take (xs.length + k).toNat

/-- The text embedded for a product at indexing time:
`f"{product['name']} {product['description']}"` (line 44). -/
def indexText (p : Product) : String :=
  p.name ++ " " ++ p.description

/-- The batch of records the indexing step upserts (lines 42-60): one
point per product, id = 0-based position, vector = embedding of the
name-description text, payload = the four stored fields. -/
def indexPoints (encode : String → List ℚ) (products : List Product) : List QPoint :=
  (pyEnumerate 0 products).map (fun ip =>
    { id := ip.1
      vector := encode (indexText ip.2)
      payload := { name := ip.2.name, price := ip.2.price,
                   brand := ip.2.brand, category := ip.2.category } })

/-- A result dict of `search_products` (lines 79-85). -/
structure SearchResult where
  name : String
  price : Nat
  brand : String
  category : String
  score : ℚ
  deriving DecidableEq, Repr

/-- The external calls a search entry point performs, in order. -/
inductive ExtCall where
  | embedText (t : String)
  | vectorQuery
  | llmPost
  deriving DecidableEq, Repr

/-- Embedding of `search_products` (lines 63-85), instrumented with the sequence of
external calls its body performs: it unconditionally embeds the query
(line 64, `encoder.encode`) and queries the index (line 72,
`client.search`); `top_k` is passed through as the query limit with no
validation.  `brand_filter` is `None` or a string; the filter on `brand`
is built only when the argument is truthy (line 67: neither `None` nor
the empty string). -/
def search_productsRun (encode : String → List ℚ) (score : List ℚ → List ℚ → ℚ)
    (points : List QPoint) (query : String) (top_k : Int)
    (brand_filter : Option String) : List ExtCall × List SearchResult :=
  let query_vector := encode query
  let qdrant_filter : Option QFilter :=
    match brand_filter with
    | some b => if b == "" then none else some { must := [{ key := "brand", value := b }] }
    | none => none
  let results := qdrantSearch points score query_vector qdrant_filter top_k
  ([ExtCall.embedText query, ExtCall.vectorQuery],
   results.map (fun hit =>
     { name := hit.payload.name, price := hit.payload.price,
       brand := hit.payload.brand, category := hit.payload.category,
       score := hit.score }))

/-- The value `search_products` returns. -/
def search_products (encode : String → List ℚ) (score : List ℚ → List ℚ → ℚ)
    (points : List QPoint) (query : String) (top_k : Int)
    (brand_filter : Option String) : List SearchResult :=
  (search_productsRun encode score points query top_k brand_filter).2

/-- The external calls `search_products` performs. -/
def search_productsTrace (encode : String → List ℚ) (score : List ℚ → List ℚ → ℚ)
    (points : List QPoint) (query : String) (top_k : Int)
    (brand_filter : Option String) : List ExtCall :=
  (search_productsRun encode score points query top_k brand_filter).1

/-- One line of the catalog listing sent to the LLM (line 90):
`f"{idx}. {p['name']} ({p['brand']}): {p['description']} | ${p['price']}"`. -/
def contextLine (idx : Nat) (p : Product) : String :=
  toString idx ++ ". " ++ p.name ++ " (" ++ p.brand ++ "): " ++
    p.description ++ " | $" ++ toString p.price

/-- The listing lines, one per supplied product, numbered from 1 by
`enumerate(products_data, 1)` (lines 89-92). -/
def contextLines (products_data : List Product) : List String :=
  (pyEnumerate 1 products_data).map (fun ip => contextLine ip.1 ip.2)

/-- The catalog listing `context`: the lines joined by `"\n".join`
(line 89). -/
def semanticContext (products_data : List Product) : String :=
  String.intercalate "\n" (contextLines products_data)

/-- The spec's description of a listing line: `index. name (brand):
description | $price` with a 1-based index. -/
def specLine (idx : Nat) (p : Product) : String :=
  toString idx ++ ". " ++ p.name ++ " (" ++ p.brand ++ "): " ++
    p.description ++ " | $" ++ toString p.price

/-- The outcome of the LLM interaction as seen by line 126: either some
failure before or during parsing (network error, non-2xx status, timeout,
malformed JSON at either stage), or the successfully parsed `results`
index list. -/
inductive ParsedResponse where
  | failure
  | indices (l : List Int)
  deriving DecidableEq, Repr

/-- Line 127, `[products_data[i-1] for i in indices]`: each subscript is
evaluated with Python semantics; the first `IndexError` aborts the
comprehension (`none`), which the `except` clause turns into `[]`. -/
def mapIndices (products_data : List Product) (indices : List Int) :
    Option (List Product) :=
  indices.mapM (fun i => pyIndex products_data (i - 1))

/-- Embedding of `semantic_search` (lines 88-130), instrumented with its external
calls: the body builds the prompt and unconditionally posts it to the LLM
endpoint (line 117); `top_k` only appears inside the prompt text.  Any
exception inside the `try` block — a failed request, a parse failure, or
an `IndexError` while mapping the indices — is caught and turns the
result into `[]` (lines 128-130). -/
def semantic_searchRun (query : String) (products_data : List Product)
    (top_k : Int) (resp : ParsedResponse) : List ExtCall × List Product :=
  ([ExtCall.llmPost],
   match resp with
   | ParsedResponse.failure => []
   | ParsedResponse.indices l => (mapIndices products_data l).getD [])

/-- The value `semantic_search` returns. -/
def semantic_search (query : String) (products_data : List Product)
    (top_k : Int) (resp : ParsedResponse) : List Product :=
  (semantic_searchRun query products_data top_k resp).2

/-- The external calls `semantic_search` performs. -/
def semantic_searchTrace (query : String) (products_data : List Product)
    (top_k : Int) (resp : ParsedResponse) : List ExtCall :=
  (semantic_searchRun query products_data top_k resp).1

/-- An entry of the merged dict of `hybrid_search`: it holds either a
`search_products` result dict or a `semantic_search` product dict; both
are read through their `"name"` key. -/
inductive HybridItem where
  | vec (r : SearchResult)
  | sem (p : Product)
  deriving DecidableEq, Repr

/-- The value `p["name"]` of a merged entry. -/
def HybridItem.name : HybridItem → String
  | vec r => r.name
  | sem p => p.name

/-- One step of the merge loop (lines 142-144): insert the item at the
end unless its name is already a key of the dict. -/
def insertUnique (acc : List HybridItem) (p : HybridItem) : List HybridItem :=
  if acc.any (fun q => q.name == p.name) then acc else acc ++ [p]

/-- The merge loop of lines 141-144 over `vector_results +
semantic_results`: a Python dict keyed by name, in insertion order. -/
def combineByName (vector_results : List SearchResult)
    (semantic_results : List Product) : List HybridItem :=
  ((vector_results.map HybridItem.vec) ++ (semantic_results.map HybridItem.sem)).foldl
    insertUnique []

/-- Embedding of `hybrid_search` (lines 133-146), instrumented with its external
calls: vector search over the catalog with no brand filter, then semantic
search over the full catalog, then the name-keyed merge truncated by the
slice `[:top_k]`. -/
def hybrid_searchRun (encode : String → List ℚ) (score : List ℚ → List ℚ → ℚ)
    (points : List QPoint) (catalog : List Product) (query : String)
    (top_k : Int) (resp : ParsedResponse) : List ExtCall × List HybridItem :=
  let vector_results := search_products encode score points query top_k none
  let semantic_results := semantic_search query catalog top_k resp
  (search_productsTrace encode score points query top_k none ++
     semantic_searchTrace query catalog top_k resp,
   pyTake (combineByName vector_results semantic_results) top_k)

/-- The value `hybrid_search` returns. -/
def hybrid_search (encode : String → List ℚ) (score : List ℚ → List ℚ → ℚ)
    (points : List QPoint) (catalog : List Product) (query : String)
    (top_k : Int) (resp : ParsedResponse) : List HybridItem :=
  (hybrid_searchRun encode score points catalog query top_k resp).2

/-- The external calls `hybrid_search` performs. -/
def hybrid_searchTrace (encode : String → List ℚ) (score : List ℚ → List ℚ → ℚ)
    (points : List QPoint) (catalog : List Product) (query : String)
    (top_k : Int) (resp : ParsedResponse) : List ExtCall :=
  (hybrid_searchRun encode score points catalog query top_k resp).1

/-! ## Helper lemmas -/

theorem pyEnumerate_length (xs : List α) : ∀ n, (pyEnumerate n xs).length = xs.length := by
  induction xs with
  | nil => intro n; rfl
  | cons x xs ih => intro n; simp [pyEnumerate, ih]

theorem pyEnumerate_map_fst (xs : List α) :
    ∀ n, (pyEnumerate n xs).map Prod.fst = (List.range xs.length).map (fun i => n + i) := by
  induction xs with
  | nil => intro n; rfl
  | cons x xs ih =>
      intro n
      simp only [pyEnumerate, List.map_cons, List.length_cons, List.range_succ_eq_map,
        List.map_map, ih]
      refine List.cons_eq_cons.mpr ⟨by omega, ?_⟩
      apply List.map_congr_left
      intro i _
      simp only [Function.comp_apply]
      omega

theorem pyIndex_pos (ps : List α) (i : Int) (d : α) (h1 : 1 ≤ i)
    (h2 : i ≤ (ps.length : Int)) :
    pyIndex ps (i - 1) = some (ps.getD (i - 1).toNat d) := by
  have hnn : ¬ (i - 1 < 0) := by omega
  have hlt : (i - 1).toNat < ps.length := by omega
  simp only [pyIndex, if_neg hnn]
  rw [if_pos ⟨by omega, by omega⟩, List.get?_eq_getElem?, List.getElem?_eq_getElem hlt,
    List.getD_eq_getElem ps d hlt]

theorem pyIndex_oob (ps : List α) (i : Int)
    (h : (ps.length : Int) < i ∨ i ≤ -(ps.length : Int)) :
    pyIndex ps (i - 1) = none := by
  rcases h with h | h
  · have hnn : ¬ (i - 1 < 0) := by omega
    simp only [pyIndex, if_neg hnn]
    rw [if_neg]
    omega
  · simp only [pyIndex]
    by_cases hneg : i - 1 < 0
    · rw [if_pos hneg, if_neg]
      omega
    · rw [if_neg hneg, if_neg]
      omega

theorem mapIndices_inRange (ps : List Product) (l : List Int)
    (h : ∀ i ∈ l, 1 ≤ i ∧ i ≤ (ps.length : Int)) :
    mapIndices ps l = some (l.map (fun i => ps.getD (i - 1).toNat dummyProduct)) := by
  induction l with
  | nil => rfl
  | cons j l ih =>
      have hj := h j (by simp)
      have hrest : ∀ i ∈ l, 1 ≤ i ∧ i ≤ (ps.length : Int) := fun i hi => h i (by simp [hi])
      simp only [mapIndices, List.mapM_cons] at ih ⊢
      rw [pyIndex_pos ps j dummyProduct hj.1 hj.2, ih hrest]
      rfl

theorem mapIndices_fails (ps : List Product) (l : List Int) (i : Int) (hi : i ∈ l)
    (hnone : pyIndex ps (i - 1) = none) :
    mapIndices ps l = none := by
  induction l with
  | nil => cases hi
  | cons j l ih =>
      simp only [mapIndices, List.mapM_cons]
      rcases List.mem_cons.mp hi with rfl | hmem
      · rw [hnone]; rfl
      · cases hj : pyIndex ps (j - 1) with
        | none => rfl
        | some p =>
            simp only [Option.bind_eq_bind, Option.some_bind]
            have := ih hmem
            simp only [mapIndices] at this
            rw [this]
            rfl

theorem mem_insertHit (h x : QHit) (l : List QHit) :
    x ∈ insertHit h l ↔ x = h ∨ x ∈ l := by
  induction l with
  | nil => simp [insertHit]
  | cons y ys ih =>
      simp only [insertHit]
      by_cases hc : y.score ≤ h.score
      · rw [if_pos hc]; simp
      · rw [if_neg hc]
        simp only [List.mem_cons, ih]
        tauto

theorem mem_sortHits (x : QHit) (l : List QHit) : x ∈ sortHits l ↔ x ∈ l := by
  induction l with
  | nil => simp [sortHits]
  | cons y ys ih => simp [sortHits, mem_insertHit, ih]

theorem mem_pyTake (xs : List α) (k : Int) (x : α) (h : x ∈ pyTake xs k) : x ∈ xs := by
  unfold pyTake at h
  split at h
  · exact List.take_subset _ _ h
  · exact List.take_subset _ _ h

theorem pyTake_pos (xs : List α) (k : Int) (h : 0 < k) : pyTake xs k = xs.take k.toNat := by
  unfold pyTake
  rw [if_pos (by omega)]

theorem mem_foldl_insertUnique (items : List HybridItem) :
    ∀ (acc : List HybridItem) (x : HybridItem), x ∈ items.foldl insertUnique acc →
      x ∈ acc ∨ (x ∈ items ∧ x.name ∉ acc.map HybridItem.name) := by
  induction items with
  | nil => intro acc x hx; exact Or.inl hx
  | cons p items ih =>
      intro acc x hx
      simp only [List.foldl_cons] at hx
      rcases ih (insertUnique acc p) x hx with hacc | ⟨hmem, hnot⟩
      · unfold insertUnique at hacc
        split at hacc
        · exact Or.inl hacc
        · rcases List.mem_append.mp hacc with h | h
          · exact Or.inl h
          · rename_i hany
            refine Or.inr ⟨by simp [List.mem_singleton.mp h], ?_⟩
            rw [List.mem_singleton.mp h]
            intro hc
            rcases List.mem_map.mp hc with ⟨q, hq, hqe⟩
            exact hany (List.any_eq_true.mpr ⟨q, hq, by simp [hqe]⟩)
      · refine Or.inr ⟨by simp [hmem], fun hc => ?_⟩
        apply hnot
        unfold insertUnique
        split
        · exact hc
        · rcases List.mem_map.mp hc with ⟨q, hq, hqe⟩
          exact List.mem_map.mpr ⟨q, by simp [hq], hqe⟩

theorem name_mem_foldl_insertUnique (items : List HybridItem) :
    ∀ (acc : List HybridItem) (n : String),
      (n ∈ acc.map HybridItem.name ∨ n ∈ items.map HybridItem.name) →
      n ∈ (items.foldl insertUnique acc).map HybridItem.name := by
  induction items with
  | nil =>
      intro acc n h
      simpa using h.resolve_right (by simp)
  | cons p items ih =>
      intro acc n h
      simp only [List.foldl_cons]
      apply ih
      rcases h with h | h
      · left
        unfold insertUnique
        split
        · exact h
        · simp only [List.map_append, List.mem_append]
          exact Or.inl h
      · rcases List.mem_map.mp h with ⟨q, hq, hqe⟩
        rcases List.mem_cons.mp hq with rfl | hq'
        · left
          unfold insertUnique
          split
          · rename_i hany
            rcases List.any_eq_true.mp hany with ⟨r, hr, hre⟩
            rw [← hqe]
            exact List.mem_map.mpr ⟨r, hr, by simpa using hre⟩
          · simp [← hqe]
        · right
          exact List.mem_map.mpr ⟨q, hq', hqe⟩

theorem nodup_foldl_insertUnique (items : List HybridItem) :
    ∀ (acc : List HybridItem), (acc.map HybridItem.name).Nodup →
      ((items.foldl insertUnique acc).map HybridItem.name).Nodup := by
  induction items with
  | nil => intro acc h; exact h
  | cons p items ih =>
      intro acc h
      simp only [List.foldl_cons]
      apply ih
      unfold insertUnique
      split
      · exact h
      · rename_i hany
        simp only [List.map_append, List.map_cons, List.map_nil]
        rw [List.nodup_append]
        refine ⟨h, List.nodup_singleton _, ?_⟩
        intro a ha
        simp only [List.mem_singleton]
        intro hc
        rcases List.mem_map.mp ha with ⟨q, hq, hqe⟩
        rw [hc] at hqe
        have hall : ∀ x ∈ acc, ¬ x.name = p.name := by simpa using hany
        exact hall q hq hqe

/-! ## Concrete fixtures -/

/-- Sample product "A". -/
def prodA : Product :=
  { name := "A", description := "da", price := 1, brand := "X", category := "c" }

/-- Sample product "B". -/
def prodB : Product :=
  { name := "B", description := "db", price := 2, brand := "Y", category := "c" }

/-- Sample product "C". -/
def prodC : Product :=
  { name := "C", description := "dc", price := 3, brand := "Z", category := "c" }

/-- A three-product catalog. -/
def catalog3 : List Product := [prodA, prodB, prodC]

/-- A trivial embedding provider producing the empty vector. -/
def encodeNull : String → List ℚ := fun _ => []

/-- An embedding provider of output dimension 1. -/
def encodeOne : String → List ℚ := fun _ => [0]

/-- A constant similarity score. -/
def scoreZero : List ℚ → List ℚ → ℚ := fun _ _ => 0

/-- An indexed record for product "A" (brand "X"). -/
def pointA : QPoint :=
  { id := 0, vector := [], payload := { name := "A", price := 1, brand := "X", category := "c" } }

/-- An indexed record for product "B" (brand "Y"). -/
def pointB : QPoint :=
  { id := 1, vector := [], payload := { name := "B", price := 2, brand := "Y", category := "c" } }

/-- The search result produced from `pointA` under `scoreZero`. -/
def hitResA : SearchResult :=
  { name := "A", price := 1, brand := "X", category := "c", score := 0 }

/-- The search result produced from `pointB` under `scoreZero`. -/
def hitResB : SearchResult :=
  { name := "B", price := 2, brand := "Y", category := "c", score := 0 }

/-! ## Claims -/

/-- C1 (amended): whenever the parsed index list contains an index `i`
with `i > N` or `i ≤ -N` (where `N` is the number of supplied products),
the subscript `products_data[i-1]` raises `IndexError`, the handler
catches it, and `semantic_search` returns the empty sequence. -/
theorem semantic_search_out_of_range_empty (query : String) (ps : List Product)
    (top_k : Int) (l : List Int)
    (h : ∃ i ∈ l, (ps.length : Int) < i ∨ i ≤ -(ps.length : Int)) :
    semantic_search query ps top_k (ParsedResponse.indices l) = [] := by
  rcases h with ⟨i, hi, hio⟩
  simp only [semantic_search, semantic_searchRun,
    mapIndices_fails ps l i hi (pyIndex_oob ps i hio), Option.getD_none]

/-- Witness for `semantic_search_out_of_range_empty`: the spec's own
scenario, the response `{"results": [5]}` against a 3-product list. -/
theorem semantic_search_out_of_range_empty_witness :
    semantic_search "phone" catalog3 2 (ParsedResponse.indices [5]) = [] :=
  semantic_search_out_of_range_empty "phone" catalog3 2 [5] (by decide)

/-- C1 (counterexample): the index `0` is outside `[1, 3]`, yet against a
3-product list `semantic_search` does not fail: `products_data[-1]` is
Python's last element, so the call returns the third product, not the
empty sequence. -/
theorem semantic_search_index_zero_not_empty :
    semantic_search "phone" catalog3 3 (ParsedResponse.indices [0]) = [prodC] ∧
    semantic_search "phone" catalog3 3 (ParsedResponse.indices [0]) ≠ [] ∧
    ¬ (1 ≤ (0 : Int) ∧ (0 : Int) ≤ (catalog3.length : Int)) := by
  refine ⟨by decide, by decide, by decide⟩

/-- C5: when every parsed index lies in `[1, N]`, `semantic_search` maps
index `i` to the `(i-1)`-th supplied product and returns the images in
the service's order. -/
theorem semantic_search_maps_indices (query : String) (ps : List Product)
    (top_k : Int) (l : List Int)
    (h : ∀ i ∈ l, 1 ≤ i ∧ i ≤ (ps.length : Int)) :
    semantic_search query ps top_k (ParsedResponse.indices l) =
      l.map (fun i => ps.getD (i - 1).toNat dummyProduct) := by
  simp only [semantic_search, semantic_searchRun, mapIndices_inRange ps l h,
    Option.getD_some]

/-- Witness for `semantic_search_maps_indices`: the spec's scenario, 3
products with response `{"results": [2, 1]}` giving
`[products[1], products[0]]`. -/
theorem semantic_search_maps_indices_witness :
    semantic_search "phone" catalog3 2 (ParsedResponse.indices [2, 1]) = [prodB, prodA] := by
  rw [semantic_search_maps_indices "phone" catalog3 2 [2, 1] (by decide)]
  decide

/-- C10: `semantic_search` neither deduplicates nor truncates the parsed
index list: with all indices in range the output has exactly one product
per index. -/
theorem semantic_search_one_product_per_index (query : String) (ps : List Product)
    (top_k : Int) (l : List Int)
    (h : ∀ i ∈ l, 1 ≤ i ∧ i ≤ (ps.length : Int)) :
    (semantic_search query ps top_k (ParsedResponse.indices l)).length = l.length := by
  simp only [semantic_search, semantic_searchRun, mapIndices_inRange ps l h,
    Option.getD_some, List.length_map]

/-- Witness for `semantic_search_one_product_per_index`: the duplicated
index list `[1, 1, 1, 1]` with `top_k = 3` yields the first product four
times — more than `top_k` entries and the same product repeated. -/
theorem semantic_search_one_product_per_index_witness :
    (semantic_search "phone" catalog3 3 (ParsedResponse.indices [1, 1, 1, 1])).length = 4 ∧
    semantic_search "phone" catalog3 3 (ParsedResponse.indices [1, 1, 1, 1]) =
      [prodA, prodA, prodA, prodA] :=
  ⟨by rw [semantic_search_one_product_per_index "phone" catalog3 3 [1, 1, 1, 1] (by decide)]
      rfl,
   by decide⟩

/-- C2 (amended): none of the entry points validates `top_k`.  A
non-positive `top_k` is passed through unchanged and every entry point
still performs its external calls — `search_products` embeds the query
and queries the vector index, `semantic_search` posts to the LLM
endpoint, and `hybrid_search` does all three; no `InvalidQueryParameters`
rejection exists anywhere in the module. -/
theorem no_topk_validation (encode : String → List ℚ) (score : List ℚ → List ℚ → ℚ)
    (points : List QPoint) (catalog : List Product) (query : String)
    (resp : ParsedResponse) (brand_filter : Option String) (top_k : Int)
    (h : top_k ≤ 0) :
    search_productsTrace encode score points query top_k brand_filter =
        [ExtCall.embedText query, ExtCall.vectorQuery] ∧
    semantic_searchTrace query catalog top_k resp = [ExtCall.llmPost] ∧
    hybrid_searchTrace encode score points catalog query top_k resp =
        [ExtCall.embedText query, ExtCall.vectorQuery, ExtCall.llmPost] :=
  ⟨rfl, rfl, rfl⟩

/-- Witness for `no_topk_validation` at `top_k = 0`. -/
theorem no_topk_validation_witness :
    (0 : Int) ≤ 0 ∧
    (search_productsTrace encodeNull scoreZero [] "phone" 0 none =
        [ExtCall.embedText "phone", ExtCall.vectorQuery] ∧
     semantic_searchTrace "phone" [] 0 ParsedResponse.failure = [ExtCall.llmPost] ∧
     hybrid_searchTrace encodeNull scoreZero [] [] "phone" 0 ParsedResponse.failure =
        [ExtCall.embedText "phone", ExtCall.vectorQuery, ExtCall.llmPost]) :=
  ⟨by decide,
   no_topk_validation encodeNull scoreZero [] [] "phone" ParsedResponse.failure none 0 (by decide)⟩

/-- C2 (counterexample): with `top_k = 0` each entry point still reaches
its external services — the call sequence is non-empty, so nothing is
rejected before the first external call. -/
theorem topk_zero_still_calls_externals :
    search_productsTrace encodeNull scoreZero [] "phone" 0 none ≠ [] ∧
    semantic_searchTrace "phone" [] 0 ParsedResponse.failure ≠ [] ∧
    hybrid_searchTrace encodeNull scoreZero [] [] "phone" 0 ParsedResponse.failure ≠ [] := by
  refine ⟨by decide, by decide, by decide⟩

/-- C3: for a positive `top_k`, `hybrid_search` returns at most `top_k`
entries and no two of them share a name. -/
theorem hybrid_search_topk_nodup (encode : String → List ℚ) (score : List ℚ → List ℚ → ℚ)
    (points : List QPoint) (catalog : List Product) (query : String)
    (resp : ParsedResponse) (top_k : Int) (h : 0 < top_k) :
    (hybrid_search encode score points catalog query top_k resp).length ≤ top_k.toNat ∧
    ((hybrid_search encode score points catalog query top_k resp).map HybridItem.name).Nodup := by
  unfold hybrid_search hybrid_searchRun combineByName
  simp only []
  rw [pyTake_pos _ _ h]
  constructor
  · rw [List.length_take]
    exact Nat.min_le_left _ _
  · rw [List.map_take]
    exact List.Nodup.sublist (List.take_sublist _ _)
      (nodup_foldl_insertUnique _ [] (by simp))

/-- Witness for `hybrid_search_topk_nodup` at a concrete query. -/
theorem hybrid_search_topk_nodup_witness :
    (hybrid_search encodeNull scoreZero [pointA, pointB] catalog3 "phone" 3
        (ParsedResponse.indices [1, 2])).length ≤ (3 : Int).toNat ∧
    ((hybrid_search encodeNull scoreZero [pointA, pointB] catalog3 "phone" 3
        (ParsedResponse.indices [1, 2])).map HybridItem.name).Nodup :=
  hybrid_search_topk_nodup encodeNull scoreZero [pointA, pointB] catalog3 "phone"
    (ParsedResponse.indices [1, 2]) 3 (by decide)

/-- C4: `hybrid_search` keeps the first occurrence of each name with the
vector results iterated first, so any output entry whose name also occurs
among the vector results is itself vector-sourced; and on the spec's
scenario — vector results `[A, B]`, semantic results `[B, C]`,
`top_k = 3` — the output is `[A, B, C]` with the vector-sourced copy of
`B` kept. -/
theorem hybrid_search_vector_precedence :
    (∀ (encode : String → List ℚ) (score : List ℚ → List ℚ → ℚ) (points : List QPoint)
        (catalog : List Product) (query : String) (top_k : Int) (resp : ParsedResponse)
        (x : HybridItem),
        x ∈ hybrid_search encode score points catalog query top_k resp →
        (∃ r ∈ search_products encode score points query top_k none, r.name = x.name) →
        ∃ r ∈ search_products encode score points query top_k none, x = HybridItem.vec r) ∧
    hybrid_search encodeNull scoreZero [pointA, pointB] [prodB, prodC] "phone" 3
        (ParsedResponse.indices [1, 2]) =
      [HybridItem.vec hitResA, HybridItem.vec hitResB, HybridItem.sem prodC] := by
  constructor
  · intro encode score points catalog query top_k resp x hx hex
    have hx' : x ∈ combineByName (search_products encode score points query top_k none)
        (semantic_search query catalog top_k resp) :=
      mem_pyTake _ _ _ hx
    unfold combineByName at hx'
    rw [List.foldl_append] at hx'
    rcases mem_foldl_insertUnique _ _ x hx' with hacc | ⟨_, hnot⟩
    · rcases mem_foldl_insertUnique _ _ x hacc with hnil | ⟨hmem, _⟩
      · cases hnil
      · rcases List.mem_map.mp hmem with ⟨r, hr, rfl⟩
        exact ⟨r, hr, rfl⟩
    · exfalso
      rcases hex with ⟨r, hr, hrname⟩
      apply hnot
      apply name_mem_foldl_insertUnique
      right
      exact List.mem_map.mpr ⟨HybridItem.vec r, List.mem_map.mpr ⟨r, hr, rfl⟩, hrname⟩
  · decide

/-- Witness for `hybrid_search_vector_precedence`: in the scenario, the
entry named "B" of the output is the vector-sourced record. -/
theorem hybrid_search_vector_precedence_witness :
    ∃ r ∈ search_products encodeNull scoreZero [pointA, pointB] "phone" 3 none,
      HybridItem.vec hitResB = HybridItem.vec r :=
  hybrid_search_vector_precedence.1 encodeNull scoreZero [pointA, pointB] [prodB, prodC]
    "phone" 3 (ParsedResponse.indices [1, 2]) (HybridItem.vec hitResB) (by decide) (by decide)

/-- C6 (amended): for every non-empty `brand_filter` string, every record
returned by `search_products` has a `brand` field equal (case-sensitively)
to the filter value. -/
theorem search_products_brand_filter_exact (encode : String → List ℚ)
    (score : List ℚ → List ℚ → ℚ) (points : List QPoint) (query : String)
    (top_k : Int) (b : String) (hb : b ≠ "") :
    ∀ r ∈ search_products encode score points query top_k (some b), r.brand = b := by
  intro r hr
  have hbeq : (b == "") = false := by simpa using hb
  simp only [search_products, search_productsRun, hbeq, Bool.false_eq_true,
    if_false] at hr
  rcases List.mem_map.mp hr with ⟨hit, hhit, rfl⟩
  unfold qdrantSearch at hhit
  simp only [] at hhit
  have hsorted := List.take_subset _ _ hhit
  rw [mem_sortHits] at hsorted
  rcases List.mem_map.mp hsorted with ⟨p, hp, rfl⟩
  have hpass := (List.mem_filter.mp hp).2
  simp only [filterHolds, List.all_cons, List.all_nil, Bool.and_true, condHolds,
    payloadGet] at hpass
  simpa using hpass

/-- Witness for `search_products_brand_filter_exact`: filtering two
points on brand "Y" returns the brand-"Y" record. -/
theorem search_products_brand_filter_exact_witness :
    SearchResult.brand hitResB = "Y" :=
  search_products_brand_filter_exact encodeNull scoreZero [pointA, pointB] "phone" 3 "Y"
    (by decide) hitResB (by decide)

/-- C6 (counterexample): the empty string is a provided `brand_filter`
value, but it is falsy in Python, so line 67 builds no filter at all and
records of any brand come back: here a record whose brand is "X", not
the filter value "". -/
theorem search_products_empty_filter_ignores_brand :
    search_products encodeNull scoreZero [pointA] "phone" 3 (some "") = [hitResA] ∧
    SearchResult.brand hitResA ≠ "" := by
  refine ⟨by decide, by decide⟩

/-- C7: the indexing step builds exactly one record per catalog product —
the record count equals the catalog length, the ids are the 0-based
catalog positions — and, provided the embedding provider always returns
vectors of its fixed dimension, every stored vector has that
dimension. -/
theorem indexing_one_point_per_product (encode : String → List ℚ) (dim : Nat)
    (ps : List Product) (h : ∀ t, (encode t).length = dim) :
    (indexPoints encode ps).length = ps.length ∧
    (indexPoints encode ps).map QPoint.id = List.range ps.length ∧
    ∀ pt ∈ indexPoints encode ps, pt.vector.length = dim := by
  refine ⟨?_, ?_, ?_⟩
  · simp [indexPoints, pyEnumerate_length]
  · unfold indexPoints
    rw [List.map_map]
    calc (pyEnumerate 0 ps).map _ = (pyEnumerate 0 ps).map Prod.fst := by
          apply List.map_congr_left
          intro ip _
          rfl
      _ = (List.range ps.length).map (fun i => 0 + i) := pyEnumerate_map_fst ps 0
      _ = List.range ps.length := by simp
  · intro pt hpt
    rcases List.mem_map.mp hpt with ⟨ip, _, rfl⟩
    exact h (indexText ip.2)

/-- Witness for `indexing_one_point_per_product` on a 3-product catalog
with a dimension-1 provider. -/
theorem indexing_one_point_per_product_witness :
    (indexPoints encodeOne catalog3).length = catalog3.length ∧
    (indexPoints encodeOne catalog3).map QPoint.id = List.range catalog3.length ∧
    ∀ pt ∈ indexPoints encodeOne catalog3, pt.vector.length = 1 :=
  indexing_one_point_per_product encodeOne 1 catalog3 (fun _ => rfl)

theorem contextLines_shifted (ps : List Product) :
    ∀ n, (pyEnumerate n ps).map (fun ip => contextLine ip.1 ip.2) =
      (List.range ps.length).map (fun i => specLine (n + i) (ps.getD i dummyProduct)) := by
  induction ps with
  | nil => intro n; rfl
  | cons p ps ih =>
      intro n
      simp only [pyEnumerate, List.map_cons, List.length_cons, List.range_succ_eq_map,
        List.map_map]
      refine List.cons_eq_cons.mpr ⟨?_, ?_⟩
      · show contextLine n p = specLine (n + 0) ((p :: ps).getD 0 dummyProduct)
        simp [contextLine, specLine]
      · rw [ih (n + 1)]
        apply List.map_congr_left
        intro i _
        simp only [Function.comp_apply, List.getD_cons_succ]
        congr 1
        omega

/-- C8: the catalog listing sent to the LLM is one line per supplied
product, joined with newline separators, where the line for the product
at 0-based position `i` is `specLine (i+1) product` — the spec's
`index. name (brand): description | $price` template with a 1-based
index — in input order. -/
theorem semanticContext_one_based_lines (ps : List Product) :
    semanticContext ps = String.intercalate "\n"
      ((List.range ps.length).map (fun i => specLine (i + 1) (ps.getD i dummyProduct))) ∧
    (contextLines ps).length = ps.length := by
  constructor
  · unfold semanticContext contextLines
    rw [contextLines_shifted ps 1]
    congr 1
    apply List.map_congr_left
    intro i _
    congr 1
    omega
  · unfold contextLines
    simp [pyEnumerate_length]

/-- C9: an empty-string `brand_filter` is falsy at line 67, so
`search_products` behaves exactly as with no brand filter. -/
theorem search_products_empty_filter_eq_none (encode : String → List ℚ)
    (score : List ℚ → List ℚ → ℚ) (points : List QPoint) (query : String)
    (top_k : Int) :
    search_products encode score points query top_k (some "") =
      search_products encode score points query top_k none := rfl
